import Mathlib

namespace GW2

-- Site constants from the sources.

def MAIN_SITE_URL : String := "https://www.guildwars2.com"

def MEDIA_URL : String := "https://www.guildwars2.com/en/media/wallpapers/"

def RELEASES_URL : String := "https://www.guildwars2.com/en/the-game/releases/"

-- Python string primitives used by the sources, modelled over the char list
-- backing Lean strings.

def py_is_space (c : Char) : Bool :=
  c = ' ' ∨ c = '\t' ∨ c = '\n' ∨ c = '\r' ∨ c = '\x0b' ∨ c = '\x0c'

/-- Python str.strip with no argument: drop whitespace at both ends. -/
def pyStrip (s : String) : String :=
  String.mk (((s.data.dropWhile py_is_space).reverse.dropWhile py_is_space).reverse)

def starts_with_chars : List Char → List Char → Bool
  | [], _ => true
  | _ :: _, [] => false
  | p :: ps, c :: cs => p == c && starts_with_chars ps cs

/-- Python str.startswith. -/
def pyStartsWith (s pre : String) : Bool :=
  starts_with_chars pre.data s.data

/-- Python str.replace: replace every non-overlapping occurrence of pat,
scanning left to right. The fuel argument is a structural-recursion bound;
each step consumes at least one character, so a fuel of the list length
never runs out. -/
def replaceFuel (pat repl : List Char) : Nat → List Char → List Char
  | 0, l => l
  | _, [] => []
  | fuel + 1, c :: cs =>
    if pat.isPrefixOf (c :: cs) then
      repl ++ replaceFuel pat repl fuel (List.drop (pat.length - 1) cs)
    else
      c :: replaceFuel pat repl fuel cs

def replaceL (pat repl l : List Char) : List Char :=
  replaceFuel pat repl l.length l

def pyReplace (s pat repl : String) : String :=
  String.mk (replaceL pat.data repl.data s.data)

/-- The filename-safe character set of GW2Walls.__filename:
dash, underscore, dot, parens, space, ASCII letters and digits. -/
def valid_chars : String :=
  "-_.() abcdefghijklmnopqrstuvwxyzABCDEFGHIJKLMNOPQRSTUVWXYZ0123456789"

/-- GW2Walls.__filename: keep only characters of the valid set, drop the rest. -/
def py_filename (in_file : String) : String :=
  String.mk (in_file.data.filter (fun c => valid_chars.data.contains c))

def py_lower (s : String) : String :=
  String.mk (s.data.map (fun c =>
    if 'A' ≤ c ∧ c ≤ 'Z' then Char.ofNat (c.toNat + 32) else c))

def split_char (sep : Char) : List Char → List (List Char)
  | [] => [[]]
  | c :: cs =>
    if c = sep then [] :: split_char sep cs
    else
      match split_char sep cs with
      | [] => [[c]]
      | h :: t => (c :: h) :: t

/-- Python str.split with a one-character separator. -/
def pySplit (s : String) (sep : Char) : List String :=
  (split_char sep s.data).map String.mk

-- Python exceptions raised by the sources.

inductive PyError where
  | valueError (msg : String)
  | osError (msg : String)
  | indexError
deriving DecidableEq

def PyError.isValueError : PyError → Bool
  | .valueError _ => true
  | _ => false

instance {ε α : Type} [DecidableEq ε] [DecidableEq α] : DecidableEq (Except ε α) := fun
  | .error a, .error b =>
    if h : a = b then .isTrue (by rw [h])
    else .isFalse (by intro he; cases he; exact h rfl)
  | .error _, .ok _ => .isFalse (by intro h; cases h)
  | .ok _, .error _ => .isFalse (by intro h; cases h)
  | .ok a, .ok b =>
    if h : a = b then .isTrue (by rw [h])
    else .isFalse (by intro he; cases he; exact h rfl)

-- Release dates: datetime.strptime restricted to the two formats the
-- sources try, and datetime.date values.

structure PyDate where
  year : Nat
  month : Nat
  day : Nat
deriving DecidableEq

def month_names : List String :=
  ["january", "february", "march", "april", "may", "june",
   "july", "august", "september", "october", "november", "december"]

/-- strptime directive B: a full month name, case-insensitive. -/
def month_from_name (s : String) : Option Nat :=
  (month_names.findIdx? (fun n => n == py_lower s)).map (· + 1)

def digits_to_nat (l : List Char) : Nat :=
  l.foldl (fun a c => a * 10 + (c.toNat - 48)) 0

/-- strptime directive Y: exactly four digits, and datetime.date then
requires a year of at least 1. -/
def parse_year (s : String) : Option Nat :=
  if s.length = 4 ∧ s.data.all Char.isDigit ∧ 1 ≤ digits_to_nat s.data then
    some (digits_to_nat s.data)
  else none

/-- strptime directive d: one or two digits with value 1..31. -/
def parse_day (s : String) : Option Nat :=
  if (s.length = 1 ∨ s.length = 2) ∧ s.data.all Char.isDigit
      ∧ 1 ≤ digits_to_nat s.data ∧ digits_to_nat s.data ≤ 31 then
    some (digits_to_nat s.data)
  else none

def is_leap (y : Nat) : Bool :=
  y % 4 = 0 ∧ (y % 100 ≠ 0 ∨ y % 400 = 0)

def days_in_month (y m : Nat) : Nat :=
  if m = 2 then (if is_leap y then 29 else 28)
  else if m = 4 ∨ m = 6 ∨ m = 9 ∨ m = 11 then 30
  else 31

/-- strptime with format month-year: month name, hyphen, four-digit year.
The day defaults to 1. A hyphen can occur in neither a month name nor a
year, so a full regex match is a two-part split. -/
def strptime_BY (s : String) : Option PyDate :=
  match pySplit s '-' with
  | [ms, ys] =>
    match month_from_name ms, parse_year ys with
    | some m, some y => some ⟨y, m, 1⟩
    | _, _ => none
  | _ => none

/-- strptime with format month-day-year, with the day-of-month range check
done by the datetime.date constructor. -/
def strptime_BdY (s : String) : Option PyDate :=
  match pySplit s '-' with
  | [ms, ds, ys] =>
    match month_from_name ms, parse_day ds, parse_year ys with
    | some m, some d, some y =>
      if d ≤ days_in_month y m then some ⟨y, m, d⟩ else none
    | _, _, _ => none
  | _ => none

def strptime (fmt : String) (s : String) : Option PyDate :=
  if fmt = "%B-%Y" then strptime_BY s
  else if fmt = "%B-%d-%Y" then strptime_BdY s
  else none

def date_formats : List String := ["%B-%Y", "%B-%d-%Y"]

/-- The loop of __get_release_date: try each format in order, return the
first that parses, and the empty marker (none) if every format fails. -/
def try_formats : List String → String → Option PyDate
  | [], _ => none
  | f :: fs, s =>
    match strptime f s with
    | some d => some d
    | none => try_formats fs s

/-- Python negative index -2 on a list: defined only when the list has at
least two elements (an IndexError otherwise). -/
def neg2 (l : List String) : Option String :=
  if 2 ≤ l.length then l.get? (l.length - 2) else none

/-- GW2Walls.__get_release_date and get_release_date_from_url: split the URL
on slashes, take the second-to-last segment, try the two date formats in
order. The outer Option is the IndexError case of the -2 index; the inner
Option is the empty-string result when no format parses. -/
def get_release_date_from_url (release_url : String) : Option (Option PyDate) :=
  (neg2 (pySplit release_url '/')).map (try_formats date_formats)

-- Markup model: the pages are consumed through the markup-query capability
-- only, so a page is modelled by the elements those queries return.

/-- An anchor element: its href attribute and its visible text. -/
structure Anchor where
  href : String
  text : String
deriving DecidableEq

/-- One li element of class wallpaper on the media page: the src of its
img child and its anchor descendants, in document order. -/
structure MediaItem where
  imgSrc : String
  anchors : List Anchor
deriving DecidableEq

/-- A ul element of a release page: its class tokens and its anchor
descendants, in document order. -/
structure UL where
  classes : List String
  anchors : List Anchor
deriving DecidableEq

/-- A release page: its title text and its ul elements in document order. -/
structure ReleasePage where
  title : String
  uls : List UL
deriving DecidableEq

/-- A catalog record: the dict appended to GW2Walls.walls. The date field
is a date or the empty string, the num field an int or the empty string;
the empty strings are modelled by none. -/
structure Wall where
  name : String
  dim : String
  url : String
  type : String
  date : Option PyDate
  num : Option Nat
deriving DecidableEq

-- GW2Walls.py extraction.

/-- The href normalization of GW2Walls.py (media and release loops alike):
prepend https colon unless the href already starts with it. -/
def normalize_href (href : String) : String :=
  if pyStartsWith href "https:" then href else "https:" ++ href

/-- GW2Walls.get_media_walls name derivation: last path segment of the img
src with dash crop dot jpg replaced by the empty string. -/
def media_wall_name (src : String) : String :=
  pyReplace ((pySplit src '/').getLastD "") "-crop.jpg" ""

/-- GW2Walls.get_media_walls: one record per size anchor of each wallpaper
li, category media, empty date and number. -/
def get_media_walls (items : List MediaItem) : List Wall :=
  (items.map (fun wall_item =>
    let wall_name := media_wall_name wall_item.imgSrc
    wall_item.anchors.map (fun a =>
      { name := wall_name
        dim := a.text
        url := normalize_href a.href
        type := "media"
        date := none
        num := none }))).flatten

/-- find_all with a ul tag and a class keyword: the uls whose class list
holds the keyword, in document order. -/
def find_all_ul (uls : List UL) (keyword : String) : List UL :=
  uls.filter (fun u => u.classes.contains keyword)

/-- The wallpaper-list blocks of a release page in scan order: the
wallpaper keyword pass first, then the resolutions keyword pass. -/
def matched_uls (page : ReleasePage) : List UL :=
  find_all_ul page.uls "wallpaper" ++ find_all_ul page.uls "resolutions"

/-- The records of one block: the block number n is shared by every anchor
of the ul. -/
def block_walls (wall_name : String) (wall_date : Option PyDate) (n : Nat)
    (u : UL) : List Wall :=
  u.anchors.map (fun a =>
    { name := wall_name
      dim := a.text
      url := normalize_href a.href
      type := "release"
      date := wall_date
      num := some n })

/-- The block loop of get_specified_release_wall: wall_number starts at 0
and is incremented before each block emits. -/
def emit_blocks (wall_name : String) (wall_date : Option PyDate) :
    Nat → List UL → List Wall
  | _, [] => []
  | n, u :: rest =>
    block_walls wall_name wall_date (n + 1) u
      ++ emit_blocks wall_name wall_date (n + 1) rest

/-- GW2Walls.get_specified_release_wall on an already fetched page: name
from the title with the site suffix removed and filtered to the safe set,
date from the URL, then the two keyword scans. none is the IndexError of
the date lookup on a URL with fewer than two segments. -/
def get_specified_release_wall (page : ReleasePage) (release_url : String) :
    Option (List Wall) :=
  (get_release_date_from_url release_url).map (fun wall_date =>
    let wall_name := py_filename (pyReplace page.title " | GuildWars2.com" "")
    emit_blocks wall_name wall_date 0 (matched_uls page))

/-- The release loop of GW2Walls.get_release_walls over resolved release
URLs, with page fetching as an oracle. No try block guards the fetch, so
a fetch error propagates and ends the whole loop. -/
def get_release_walls_v1 (fetch : String → Except PyError ReleasePage) :
    List String → Except PyError (List Wall)
  | [] => .ok []
  | u :: rest =>
    match fetch u with
    | .error e => .error e
    | .ok page =>
      match get_specified_release_wall page u with
      | none => .error .indexError
      | some ws =>
        match get_release_walls_v1 fetch rest with
        | .error e => .error e
        | .ok more => .ok (ws ++ more)

-- GW2Walls-Threads.py media extraction (the name derivation differs).

/-- The Threads and Async variants replace dash crop dot jpg by dot jpg,
keeping the extension. -/
def media_wall_name_threads (src : String) : String :=
  pyReplace ((pySplit src '/').getLastD "") "-crop.jpg" ".jpg"

/-- get_media_walls of GW2Walls-Threads.py: anchors whose stripped text
differs from the requested dimensions are skipped; each kept anchor
becomes a download task for the derived name. -/
def get_media_walls_threads (dimensions : String) (items : List MediaItem) :
    List Wall :=
  (items.map (fun wall_item =>
    let wall_name := media_wall_name_threads wall_item.imgSrc
    wall_item.anchors.filterMap (fun a =>
      if pyStrip a.text == dimensions then
        some { name := wall_name
               dim := a.text
               url := normalize_href a.href
               type := "media"
               date := none
               num := none }
      else none))).flatten

-- GW2Walls2.py URL normalization and release crawl.

/-- GW2Walls2.cleanup_url: protocol-relative URLs get the https scheme,
site-relative URLs get the site origin, everything else is unchanged. -/
def cleanup_url (url : String) : String :=
  if pyStartsWith url "//" then "https:" ++ url
  else if pyStartsWith url "/" then MAIN_SITE_URL ++ url
  else url

/-- One release entry of the releases index as GW2Walls2 reads it: section
title, release name, release date text and the release page link. -/
structure RelEntry where
  section_title : String
  release_name : String
  release_date : String
  href : String
deriving DecidableEq

/-- GW2Walls2.get_release_urls: fetch the release page (the links found on
it are the oracle result); a fetch error is logged and the release yields
nothing. Anchors whose text equals the resolution are queued as URL and
destination pairs. -/
def release_items2 (fetch : String → Except PyError (List Anchor))
    (resolution save_path : String) (ent : RelEntry) :
    List (String × String) :=
  match fetch (cleanup_url ent.href) with
  | .error _ => []
  | .ok links =>
    links.filterMap (fun a =>
      let file_url := cleanup_url a.href
      if a.text == resolution then
        some (file_url,
          save_path ++ "/" ++ ent.release_date ++ " " ++ ent.section_title
            ++ " " ++ ent.release_name ++ " "
            ++ ((pySplit file_url '/').getLastD ""))
      else none)

/-- The per-entry loop of GW2Walls2.get_releases_urls. -/
def crawl_releases2 (fetch : String → Except PyError (List Anchor))
    (resolution save_path : String) (entries : List RelEntry) :
    List (String × String) :=
  (entries.map (release_items2 fetch resolution save_path)).flatten

/-- GW2Walls2.get_releases_urls: the top-level index fetch is not guarded,
so its error is fatal; per-release errors are absorbed by release_items2. -/
def get_releases_urls2 (fetch_index : String → Except PyError (List RelEntry))
    (fetch : String → Except PyError (List Anchor))
    (resolution save_path : String) :
    Except PyError (List (String × String)) :=
  match fetch_index RELEASES_URL with
  | .error e => .error e
  | .ok entries => .ok (crawl_releases2 fetch resolution save_path entries)

-- Catalog: the walls list plus the filter of collect_download_urls.

/-- The message of the dimension ValueError. Python renders a set; the
choices are rendered here in first-occurrence order. -/
def dim_error_msg (dim : String) (walls : List Wall) : String :=
  "Incorrect dimension specified (" ++ dim
    ++ "). Please specify one of the following: "
    ++ String.intercalate ", " ((walls.map Wall.dim).dedup)

def name_error_msg (n : String) (walls : List Wall) : String :=
  "Incorrect release name specified (" ++ n
    ++ "). Please specify one of the following: "
    ++ String.intercalate ", " ((walls.map Wall.name).dedup)

def type_error_msg (t : String) (walls : List Wall) : String :=
  "Incorrect type specified (" ++ t
    ++ "). Please specify one of the following: "
    ++ String.intercalate ", " ((walls.map Wall.type).dedup)

/-- The four-way matching branch of the collect_download_urls loop. -/
def matches_filter (dim : String) (name wtype : Option String)
    (item : Wall) : Bool :=
  match name, wtype with
  | some n, some t => item.name == n && item.type == t && item.dim == dim
  | some n, none => item.name == n && item.dim == dim
  | none, some t => item.type == t && item.dim == dim
  | none, none => item.dim == dim

/-- GW2Walls.collect_download_urls: guard the requested dimension, then the
optional name and type, against the values present in the catalog, then
keep the matching records in catalog order. A falsy (absent or empty)
optional argument is modelled by none. -/
def collect_download_urls (walls : List Wall) (dim : String)
    (name wtype : Option String) : Except PyError (List Wall) :=
  if !((walls.map Wall.dim).contains dim) then
    .error (.valueError (dim_error_msg dim walls))
  else if name.any (fun n => !((walls.map Wall.name).contains n)) then
    .error (.valueError (name_error_msg (name.getD "") walls))
  else if wtype.any (fun t => !((walls.map Wall.type).contains t)) then
    .error (.valueError (type_error_msg (wtype.getD "") walls))
  else
    .ok (walls.filter (matches_filter dim name wtype))

/-- GW2Walls.__init__ after the two extraction calls: the combined walls
list, rejected with a ValueError when it is empty. -/
def gw2walls_init (media_walls release_walls : List Wall) :
    Except PyError (List Wall) :=
  let walls := media_walls ++ release_walls
  if walls.length = 0 then .error (.valueError "No walls found.")
  else .ok walls

/-- The orchestration order of the script: construct the catalog (which
fails fast on emptiness), then filter. Image fetching consumes the result
of this and is reached only on ok. -/
def run_pipeline (media_walls release_walls : List Wall) (dim : String)
    (name wtype : Option String) : Except PyError (List Wall) :=
  match gw2walls_init media_walls release_walls with
  | .error e => .error e
  | .ok walls => collect_download_urls walls dim name wtype

-- Path resolver: the use_info naming of download_walls.

/-- Python str of a datetime.date: ISO year-month-day with zero padding. -/
def pad_nat (width n : Nat) : String :=
  let s := toString n
  String.mk (List.replicate (width - s.length) '0') ++ s

def date_str : Option PyDate → String
  | none => ""
  | some d => pad_nat 4 d.year ++ "-" ++ pad_nat 2 d.month ++ "-" ++ pad_nat 2 d.day

def num_str : Option Nat → String
  | none => ""
  | some n => toString n

/-- The format template date space name space num space dim dot jpg. -/
def format_info (item : Wall) : String :=
  date_str item.date ++ " " ++ item.name ++ " " ++ num_str item.num
    ++ " " ++ item.dim ++ ".jpg"

/-- The use_info file name of download_walls: the filled template with
leading and trailing whitespace stripped. -/
def info_name (item : Wall) : String :=
  pyStrip (format_info item)

/-- os.path.join of the save root and a relative file name. -/
def path_join (root child : String) : String :=
  root ++ "/" ++ child

def save_file_info (save_path : String) (item : Wall) : String :=
  path_join save_path (info_name item)

-- Fetch Scheduler model: the download loop of download_walls with the
-- network and file opening as a per-item oracle, threading the set of
-- written files. A failed item is caught and the loop continues.

structure DLState where
  files : List String
deriving DecidableEq

/-- One loop iteration: the try block around urlopen and the file write.
On oracle failure the state is unchanged and the error is the logged
outcome; on success the destination is recorded as written. -/
def download_step (io : String × String → Except PyError Unit)
    (st : DLState) (it : String × String) : DLState × Except PyError Unit :=
  match io it with
  | .error e => (st, .error e)
  | .ok _ => (⟨it.2 :: st.files⟩, .ok ())

/-- The whole download loop: every submitted item is processed exactly
once, in order, and the loop returns only once each item has its outcome. -/
def download_walls_run (io : String × String → Except PyError Unit) :
    DLState → List (String × String) → DLState × List (Except PyError Unit)
  | st, [] => (st, [])
  | st, it :: rest =>
    let out := download_step io st it
    let next := download_walls_run io out.1 rest
    (next.1, out.2 :: next.2)

def is_err {α : Type} : Except PyError α → Bool
  | .error _ => true
  | .ok _ => false

def is_ok_exc {α : Type} : Except PyError α → Bool
  | .error _ => false
  | .ok _ => true

-- Observables used by the stated properties.

/-- The sequence numbers carried by a record list, in record order. -/
def seq_nums (ws : List Wall) : List Nat :=
  ws.filterMap Wall.num

/-- Two consecutive space characters occur somewhere in the list. -/
def has_double_space : List Char → Bool
  | c1 :: c2 :: rest => (c1 = ' ' ∧ c2 = ' ') || has_double_space (c2 :: rest)
  | _ => false

-- Concrete inputs for the stated scenarios.

/-- The media page of the concrete spec scenario: one wallpaper li whose
img src ends in foo-crop.jpg and two size links. -/
def scenario_media_items : List MediaItem :=
  [⟨"https://cdn/img/foo-crop.jpg",
    [⟨"//cdn/x1920.jpg", "1920x1200"⟩, ⟨"/media/x1280.jpg", "1280x1024"⟩]⟩]

/-- A release page whose first wallpaper block has no size links. -/
def page_skip : ReleasePage :=
  ⟨"Gap Release | GuildWars2.com",
   [⟨["wallpaper"], []⟩,
    ⟨["wallpaper"], [⟨"//cdn/a.jpg", "1920x1200"⟩]⟩]⟩

/-- A release page with two wallpaper blocks, each holding size links. -/
def page_two : ReleasePage :=
  ⟨"Two Blocks | GuildWars2.com",
   [⟨["wallpaper"], [⟨"//cdn/a.jpg", "1920x1200"⟩]⟩,
    ⟨["resolutions"], [⟨"//cdn/b.jpg", "1600x1200"⟩, ⟨"//cdn/c.jpg", "1920x1200"⟩]⟩]⟩

def rel_url_good : String :=
  "https://www.guildwars2.com/en/the-game/releases/august-12-2014/"

def rel_url_nodate : String :=
  "https://www.guildwars2.com/en/the-game/releases/not-a-date/"

def rel_url_bad : String :=
  "https://www.guildwars2.com/en/the-game/releases/bad-release/"

def date_aug12 : PyDate := ⟨2014, 8, 12⟩

/-- The records of page_two as get_specified_release_wall emits them. -/
def ws_two : List Wall :=
  [⟨"Two Blocks", "1920x1200", "https://cdn/a.jpg", "release", some date_aug12, some 1⟩,
   ⟨"Two Blocks", "1600x1200", "https://cdn/b.jpg", "release", some date_aug12, some 2⟩,
   ⟨"Two Blocks", "1920x1200", "https://cdn/c.jpg", "release", some date_aug12, some 2⟩]

/-- A release fetch oracle that fails on the bad URL only. -/
def fetch_c8 : String → Except PyError ReleasePage := fun u =>
  if u = rel_url_bad then .error (.valueError "fetch failed") else .ok page_two

/-- A release-links fetch oracle for the GW2Walls2 model that fails on one
page. -/
def fetch2_c8 : String → Except PyError (List Anchor) := fun u =>
  if u = "https://www.guildwars2.com/bad" then .error (.osError "net down")
  else .ok [⟨"//cdn/a.jpg", "1920x1200"⟩]

def ent_bad : RelEntry := ⟨"Season 2", "Bad Release", "2014-08-12", "/bad"⟩

def ent_good : RelEntry := ⟨"Season 2", "Good Release", "2014-08-26", "/good"⟩

/-- The media record of the concrete scenario. -/
def wall_media_foo : Wall :=
  ⟨"foo", "1920x1200", "https://cdn/x1920.jpg", "media", none, none⟩

/-- A per-item download oracle that fails on one URL only. -/
def io_c9 : String × String → Except PyError Unit := fun it =>
  if it.1 = "https://cdn/bad.jpg" then .error (.osError "boom") else .ok ()

def items_c9 : List (String × String) :=
  [("https://cdn/a.jpg", "/tmp/a.jpg"),
   ("https://cdn/bad.jpg", "/tmp/bad.jpg"),
   ("https://cdn/c.jpg", "/tmp/c.jpg")]

end GW2


namespace GW2

-- Shared helper lemmas.

theorem str_data_append (a b : String) : (a ++ b).data = a.data ++ b.data := by
  cases a
  cases b
  rfl

theorem starts_https_not_slash (s : String)
    (h : pyStartsWith s "https:" = true) : pyStartsWith s "/" = false := by
  unfold pyStartsWith at h ⊢
  cases hd : s.data with
  | nil =>
    rw [hd] at h
    exact absurd h (by decide)
  | cons c cs =>
    rw [hd] at h
    have h' : (('h' == c) && starts_with_chars "ttps:".data cs) = true := h
    have hc : c = 'h' := by
      have := (Bool.and_eq_true _ _).mp h' |>.1
      exact (beq_iff_eq.mp this).symm
    rw [hc]
    rfl

theorem append_https_not_slash (u : String) :
    pyStartsWith ("https:" ++ u) "/" = false := by
  unfold pyStartsWith
  rw [str_data_append]
  rfl

theorem append_origin_not_slash (u : String) :
    pyStartsWith (MAIN_SITE_URL ++ u) "/" = false := by
  unfold pyStartsWith
  rw [str_data_append]
  rfl

theorem normalize_href_not_slash (href : String) :
    pyStartsWith (normalize_href href) "/" = false := by
  unfold normalize_href
  split
  · exact starts_https_not_slash _ (by assumption)
  · exact append_https_not_slash href

theorem cleanup_url_not_slash (url : String) :
    pyStartsWith (cleanup_url url) "/" = false := by
  unfold cleanup_url
  split
  · exact append_https_not_slash url
  · split
    · exact append_origin_not_slash url
    · have h : ¬ pyStartsWith url "/" = true := by assumption
      simpa using h

-- C1.

/-- C1 (amended): cleanup_url of GW2Walls2 turns a protocol-relative href
into an https URL and prefixes a site-relative href with the site origin,
and its output never starts with a slash; the media records of GW2Walls.py
also never carry a URL starting with a slash, but their normalization only
prepends the https scheme, so the site-relative href of the media scenario
becomes https colon slash media slash x1280.jpg rather than an
origin-prefixed URL. -/
theorem c1_url_normalization :
    (∀ url, pyStartsWith url "//" = true → cleanup_url url = "https:" ++ url) ∧
    (∀ url, pyStartsWith url "//" = false → pyStartsWith url "/" = true →
      cleanup_url url = MAIN_SITE_URL ++ url) ∧
    (∀ url, pyStartsWith (cleanup_url url) "/" = false) ∧
    (∀ items w, w ∈ get_media_walls items → pyStartsWith w.url "/" = false) ∧
    normalize_href "/media/x1280.jpg" = "https:/media/x1280.jpg" := by
  refine ⟨?_, ?_, cleanup_url_not_slash, ?_, by decide⟩
  · intro url h
    unfold cleanup_url
    rw [if_pos h]
  · intro url h1 h2
    unfold cleanup_url
    rw [if_neg (by simp [h1]), if_pos h2]
  · intro items w hw
    simp only [get_media_walls, List.mem_flatten, List.mem_map] at hw
    obtain ⟨l, ⟨wi, _, rfl⟩, hwl⟩ := hw
    simp only [List.mem_map] at hwl
    obtain ⟨a, _, rfl⟩ := hwl
    exact normalize_href_not_slash a.href

/-- C1 counterexample: in the GW2Walls.py extraction of the concrete media
scenario, the record built from the site-relative href is not prefixed
with the site origin, contradicting the claim. -/
theorem c1_counterexample :
    (get_media_walls scenario_media_items).map Wall.url =
      ["https://cdn/x1920.jpg", "https:/media/x1280.jpg"] ∧
    ("https:/media/x1280.jpg" : String) ≠ MAIN_SITE_URL ++ "/media/x1280.jpg" ∧
    pyStartsWith "https:/media/x1280.jpg" MAIN_SITE_URL = false := by
  refine ⟨by decide, by decide, by decide⟩

/-- C1 witness: the amended theorem applied to a concrete
protocol-relative href. -/
theorem c1_witness :
    cleanup_url "//cdn/x1920.jpg" = "https:" ++ "//cdn/x1920.jpg" :=
  c1_url_normalization.1 "//cdn/x1920.jpg" (by decide)


-- C2.

theorem contains_true_iff (l : List String) (a : String) :
    l.contains a = true ↔ a ∈ l := List.elem_iff

theorem contains_false_iff (l : List String) (a : String) :
    l.contains a = false ↔ ¬ a ∈ l := by
  rw [← contains_true_iff]
  cases h : l.contains a <;> simp

/-- C2: filtering fails with the choice-listing ValueError exactly when the
requested dimension, or a given name or type, occurs nowhere in the
catalog; otherwise the result is precisely the subsequence of records
matching every given filter value, in catalog order. -/
theorem c2_filter_correct :
    ∀ (walls : List Wall) (dim : String) (name wtype : Option String),
    walls ≠ [] →
    ((is_err (collect_download_urls walls dim name wtype) = true) ↔
      (¬ dim ∈ walls.map Wall.dim
        ∨ (∃ n, name = some n ∧ ¬ n ∈ walls.map Wall.name)
        ∨ (∃ t, wtype = some t ∧ ¬ t ∈ walls.map Wall.type))) ∧
    (¬ dim ∈ walls.map Wall.dim →
      collect_download_urls walls dim name wtype =
        .error (.valueError (dim_error_msg dim walls))) ∧
    (∀ res, collect_download_urls walls dim name wtype = .ok res →
      res = walls.filter (fun item =>
        item.dim == dim && name.all (fun n => item.name == n)
          && wtype.all (fun t => item.type == t))) := by
  intro walls dim name wtype _
  refine ⟨?_, ?_, ?_⟩
  · by_cases h1 : dim ∈ walls.map Wall.dim
    · have hc1 := (contains_true_iff (walls.map Wall.dim) dim).mpr h1
      rw [collect_download_urls, if_neg (by rw [hc1]; decide)]
      rcases name with _ | n
      · rw [if_neg (by simp only [Option.any]; decide)]
        rcases wtype with _ | t
        · rw [if_neg (by simp only [Option.any]; decide)]
          refine iff_of_false (by simp [is_err]) ?_
          rintro (h | ⟨n', hn', _⟩ | ⟨t', ht', _⟩)
          · exact h h1
          · cases hn'
          · cases ht'
        · by_cases h3 : t ∈ walls.map Wall.type
          · have hc3 := (contains_true_iff (walls.map Wall.type) t).mpr h3
            rw [if_neg (by simp only [Option.any]; rw [hc3]; decide)]
            refine iff_of_false (by simp [is_err]) ?_
            rintro (h | ⟨n', hn', _⟩ | ⟨t', ht', hmem⟩)
            · exact h h1
            · cases hn'
            · cases ht'
              exact hmem h3
          · have hc3 := (contains_false_iff (walls.map Wall.type) t).mpr h3
            rw [if_pos (by simp only [Option.any]; rw [hc3]; decide)]
            exact iff_of_true rfl (.inr (.inr ⟨t, rfl, h3⟩))
      · by_cases h2 : n ∈ walls.map Wall.name
        · have hc2 := (contains_true_iff (walls.map Wall.name) n).mpr h2
          rw [if_neg (by simp only [Option.any]; rw [hc2]; decide)]
          rcases wtype with _ | t
          · rw [if_neg (by simp only [Option.any]; decide)]
            refine iff_of_false (by simp [is_err]) ?_
            rintro (h | ⟨n', hn', hmem⟩ | ⟨t', ht', _⟩)
            · exact h h1
            · cases hn'
              exact hmem h2
            · cases ht'
          · by_cases h3 : t ∈ walls.map Wall.type
            · have hc3 := (contains_true_iff (walls.map Wall.type) t).mpr h3
              rw [if_neg (by simp only [Option.any]; rw [hc3]; decide)]
              refine iff_of_false (by simp [is_err]) ?_
              rintro (h | ⟨n', hn', hmem⟩ | ⟨t', ht', hmem2⟩)
              · exact h h1
              · cases hn'
                exact hmem h2
              · cases ht'
                exact hmem2 h3
            · have hc3 := (contains_false_iff (walls.map Wall.type) t).mpr h3
              rw [if_pos (by simp only [Option.any]; rw [hc3]; decide)]
              exact iff_of_true rfl (.inr (.inr ⟨t, rfl, h3⟩))
        · have hc2 := (contains_false_iff (walls.map Wall.name) n).mpr h2
          rw [if_pos (by simp only [Option.any]; rw [hc2]; decide)]
          exact iff_of_true rfl (.inr (.inl ⟨n, rfl, h2⟩))
    · have hc1 := (contains_false_iff (walls.map Wall.dim) dim).mpr h1
      rw [collect_download_urls, if_pos (by rw [hc1]; decide)]
      exact iff_of_true rfl (.inl h1)
  · intro h1
    have hc1 := (contains_false_iff (walls.map Wall.dim) dim).mpr h1
    rw [collect_download_urls, if_pos (by rw [hc1]; decide)]
  · intro res hres
    by_cases h1 : (walls.map Wall.dim).contains dim
    · rw [collect_download_urls, if_neg (by rw [h1]; decide)] at hres
      by_cases h2 : name.any (fun n => !((walls.map Wall.name).contains n))
      · rw [if_pos h2] at hres
        exact absurd hres (by simp)
      · rw [if_neg h2] at hres
        by_cases h3 : wtype.any (fun t => !((walls.map Wall.type).contains t))
        · rw [if_pos h3] at hres
          exact absurd hres (by simp)
        · rw [if_neg h3] at hres
          have hres2 : walls.filter (matches_filter dim name wtype) = res := by
            injection hres
          rw [← hres2]
          refine List.filter_congr ?_
          intro item _
          rcases name with _ | n <;> rcases wtype with _ | t
          · simp only [matches_filter, Option.all, Bool.and_true]
          · simp only [matches_filter, Option.all]
            cases item.type == t <;> cases item.dim == dim <;> rfl
          · simp only [matches_filter, Option.all]
            cases item.name == n <;> cases item.dim == dim <;> rfl
          · simp only [matches_filter, Option.all]
            cases item.name == n <;> cases item.type == t <;>
              cases item.dim == dim <;> rfl
    · have hc1 : (walls.map Wall.dim).contains dim = false := by
        revert h1
        cases (walls.map Wall.dim).contains dim <;> simp
      rw [collect_download_urls, if_pos (by rw [hc1]; decide)] at hres
      exact absurd hres (by simp)

/-- C2 witness: the theorem applied to a one-record catalog and a filter
that matches it. -/
theorem c2_witness :
    [wall_media_foo] =
      [wall_media_foo].filter (fun item =>
        item.dim == "1920x1200" && (Option.none).all (fun n => item.name == n)
          && (Option.none).all (fun t => item.type == t)) :=
  (c2_filter_correct [wall_media_foo] "1920x1200" none none (by decide)).2.2
    [wall_media_foo] (by decide)

-- C3.

/-- C3: the release date comes from the second-to-last slash segment of
the release URL, tried against month-year first and month-day-year second,
taking the first format that parses; when neither parses the date is
absent and no error is raised. The concrete august-12-2014 URL yields
2014-08-12 and the not-a-date URL yields no date. -/
theorem c3_release_date_policy :
    (∀ url seg, neg2 (pySplit url '/') = some seg →
      (∀ d, strptime_BY seg = some d →
        get_release_date_from_url url = some (some d)) ∧
      (strptime_BY seg = none → ∀ d, strptime_BdY seg = some d →
        get_release_date_from_url url = some (some d)) ∧
      (strptime_BY seg = none → strptime_BdY seg = none →
        get_release_date_from_url url = some none)) ∧
    get_release_date_from_url rel_url_good = some (some ⟨2014, 8, 12⟩) ∧
    get_release_date_from_url rel_url_nodate = some none := by
  refine ⟨?_, by decide, by decide⟩
  intro url seg h
  have hg : get_release_date_from_url url =
      some (try_formats date_formats seg) := by
    rw [get_release_date_from_url, h]
    rfl
  refine ⟨?_, ?_, ?_⟩
  · intro d hd
    rw [hg]
    simp [date_formats, try_formats, strptime, hd]
  · intro hby d hd
    rw [hg]
    simp [date_formats, try_formats, strptime, hby, hd]
  · intro hby hbd
    rw [hg]
    simp [date_formats, try_formats, strptime, hby, hbd]

/-- C3 witness: the policy applied to the august-12-2014 URL, on which the
first format fails and the second parses. -/
theorem c3_witness :
    get_release_date_from_url rel_url_good = some (some ⟨2014, 8, 12⟩) :=
  ((c3_release_date_policy.1 rel_url_good "august-12-2014"
    (by decide)).2.1 (by decide) ⟨2014, 8, 12⟩ (by decide))

-- C10.

/-- C10: a segment that parses under the month-year format always yields a
complete date whose day is 1, and the august-2014 URL yields 2014-08-01. -/
theorem c10_month_year_day_one :
    (∀ url seg d, neg2 (pySplit url '/') = some seg →
      strptime_BY seg = some d →
      get_release_date_from_url url = some (some d) ∧ d.day = 1) ∧
    get_release_date_from_url
      "https://www.guildwars2.com/en/the-game/releases/august-2014/" =
      some (some ⟨2014, 8, 1⟩) := by
  refine ⟨?_, by decide⟩
  intro url seg d h hby
  have hg : get_release_date_from_url url =
      some (try_formats date_formats seg) := by
    rw [get_release_date_from_url, h]
    rfl
  refine ⟨by rw [hg]; simp [date_formats, try_formats, strptime, hby], ?_⟩
  unfold strptime_BY at hby
  split at hby
  · split at hby
    · cases hby
      rfl
    · exact absurd hby (by simp)
  · exact absurd hby (by simp)

/-- C10 witness: the day-one property applied to the august-2014 URL. -/
theorem c10_witness :
    get_release_date_from_url
        "https://www.guildwars2.com/en/the-game/releases/august-2014/" =
      some (some ⟨2014, 8, 1⟩) ∧ (⟨2014, 8, 1⟩ : PyDate).day = 1 :=
  c10_month_year_day_one.1
    "https://www.guildwars2.com/en/the-game/releases/august-2014/"
    "august-2014" ⟨2014, 8, 1⟩ (by decide) (by decide)

-- C4.

/-- C4 (amended): from an img src whose last path segment is foo-crop.jpg,
GW2Walls.py derives the record name foo (suffix and extension stripped),
while the Threads and Async variants replace the crop suffix with dot jpg
and so keep the extension, deriving foo.jpg. -/
theorem c4_media_name :
    (∀ src, (pySplit src '/').getLastD "" = "foo-crop.jpg" →
      media_wall_name src = "foo" ∧
      media_wall_name_threads src = "foo.jpg") ∧
    (get_media_walls scenario_media_items).map Wall.name = ["foo", "foo"] ∧
    (get_media_walls_threads "1920x1200" scenario_media_items).map Wall.name =
      ["foo.jpg"] := by
  refine ⟨?_, by decide, by decide⟩
  intro src h
  unfold media_wall_name media_wall_name_threads
  rw [h]
  exact ⟨by decide, by decide⟩

/-- C4 counterexample: the Threads variant extraction of the concrete media
scenario emits the name foo.jpg, with the extension remaining,
contradicting the claim that the name is exactly foo. -/
theorem c4_counterexample :
    (get_media_walls_threads "1920x1200" scenario_media_items).map Wall.name =
      ["foo.jpg"] ∧ ("foo.jpg" : String) ≠ "foo" := by
  exact ⟨by decide, by decide⟩

/-- C4 witness: the amended name derivations applied to a concrete src. -/
theorem c4_witness :
    media_wall_name "https://cdn/img/foo-crop.jpg" = "foo" ∧
    media_wall_name_threads "https://cdn/img/foo-crop.jpg" = "foo.jpg" :=
  c4_media_name.1 "https://cdn/img/foo-crop.jpg" (by decide)

-- C5.

theorem seq_nums_append (xs ys : List Wall) :
    seq_nums (xs ++ ys) = seq_nums xs ++ seq_nums ys := by
  simp [seq_nums, List.filterMap_append]

theorem seq_nums_map_anchors (nm : String) (dt : Option PyDate) (n : Nat) :
    ∀ ancs : List Anchor,
    seq_nums (ancs.map (fun a =>
      ({ name := nm, dim := a.text, url := normalize_href a.href,
         type := "release", date := dt, num := some n } : Wall))) =
      List.replicate ancs.length n := by
  intro ancs
  induction ancs with
  | nil => rfl
  | cons a rest ih =>
    simpa [seq_nums, List.filterMap_cons, List.replicate_succ] using ih

theorem seq_nums_block (nm : String) (dt : Option PyDate) (n : Nat) (u : UL) :
    seq_nums (block_walls nm dt n u) = List.replicate u.anchors.length n := by
  cases u with
  | mk cls ancs => exact seq_nums_map_anchors nm dt n ancs

theorem seq_nums_emit_lb (nm : String) (dt : Option PyDate) :
    ∀ (bs : List UL) (n k : Nat),
    k ∈ seq_nums (emit_blocks nm dt n bs) → n + 1 ≤ k := by
  intro bs
  induction bs with
  | nil =>
    intro n k hk
    simp [emit_blocks, seq_nums] at hk
  | cons u rest ih =>
    intro n k hk
    rw [show emit_blocks nm dt n (u :: rest) =
        block_walls nm dt (n + 1) u ++ emit_blocks nm dt (n + 1) rest from rfl,
      seq_nums_append] at hk
    rcases List.mem_append.mp hk with hk1 | hk2
    · rw [seq_nums_block] at hk1
      rcases List.mem_replicate.mp hk1 with ⟨_, rfl⟩
      omega
    · have := ih (n + 1) k hk2
      omega

theorem seq_nums_emit_mem (nm : String) (dt : Option PyDate) :
    ∀ (bs : List UL) (n : Nat), (∀ u ∈ bs, u.anchors ≠ []) → ∀ k,
    (k ∈ seq_nums (emit_blocks nm dt n bs) ↔ n + 1 ≤ k ∧ k ≤ n + bs.length) := by
  intro bs
  induction bs with
  | nil =>
    intro n _ k
    simp [emit_blocks, seq_nums]
    omega
  | cons u rest ih =>
    intro n h k
    have hu : u.anchors ≠ [] := h u (by simp)
    have hrest : ∀ v ∈ rest, v.anchors ≠ [] := fun v hv => h v (by simp [hv])
    have hulen : u.anchors.length ≠ 0 :=
      fun h0 => hu (List.length_eq_zero.mp h0)
    rw [show emit_blocks nm dt n (u :: rest) =
        block_walls nm dt (n + 1) u ++ emit_blocks nm dt (n + 1) rest from rfl,
      seq_nums_append]
    constructor
    · intro hk
      rcases List.mem_append.mp hk with hk1 | hk2
      · rw [seq_nums_block] at hk1
        rcases List.mem_replicate.mp hk1 with ⟨_, rfl⟩
        simp only [List.length_cons]
        omega
      · have := (ih (n + 1) hrest k).mp hk2
        simp only [List.length_cons]
        omega
    · intro hk
      simp only [List.length_cons] at hk
      by_cases hkn : k = n + 1
      · refine List.mem_append.mpr (.inl ?_)
        rw [seq_nums_block]
        exact List.mem_replicate.mpr ⟨hulen, hkn⟩
      · refine List.mem_append.mpr (.inr ?_)
        exact (ih (n + 1) hrest k).mpr (by omega)

theorem sorted_replicate (n a : Nat) :
    (List.replicate n a).Sorted (· ≤ ·) := by
  induction n with
  | zero => simp
  | succ m ih =>
    rw [List.replicate_succ, List.sorted_cons]
    exact ⟨fun b hb => le_of_eq (List.eq_of_mem_replicate hb).symm, ih⟩

theorem seq_nums_emit_sorted (nm : String) (dt : Option PyDate) :
    ∀ (bs : List UL) (n : Nat),
    (seq_nums (emit_blocks nm dt n bs)).Sorted (· ≤ ·) := by
  intro bs
  induction bs with
  | nil =>
    intro n
    simp [emit_blocks, seq_nums]
  | cons u rest ih =>
    intro n
    rw [show emit_blocks nm dt n (u :: rest) =
        block_walls nm dt (n + 1) u ++ emit_blocks nm dt (n + 1) rest from rfl,
      seq_nums_append]
    refine List.pairwise_append.mpr ⟨?_, ih (n + 1), ?_⟩
    · rw [seq_nums_block]
      exact sorted_replicate _ _
    · intro a ha b hb
      rw [seq_nums_block] at ha
      rcases List.mem_replicate.mp ha with ⟨_, rfl⟩
      exact Nat.le_of_succ_le (seq_nums_emit_lb nm dt rest (n + 1) b hb)

/-- C5 (amended): on a release page every block found by the two keyword
scans is given the next sequence number starting at 1, and all records of
one block share it; provided every block found carries at least one size
link, the numbers on the emitted records are nondecreasing and cover
exactly 1 through the number of blocks found. A block with zero links
consumes its number without emitting records, so the run can skip values. -/
theorem c5_sequence_numbers :
    ∀ (page : ReleasePage) (url : String) (ws : List Wall),
    get_specified_release_wall page url = some ws →
    (∀ u ∈ matched_uls page, u.anchors ≠ []) →
    (seq_nums ws).Sorted (· ≤ ·) ∧
    (∀ k, k ∈ seq_nums ws ↔ 1 ≤ k ∧ k ≤ (matched_uls page).length) := by
  intro page url ws hws h
  rw [get_specified_release_wall] at hws
  rcases Option.map_eq_some'.mp hws with ⟨d, _, hws2⟩
  subst hws2
  constructor
  · exact seq_nums_emit_sorted _ _ (matched_uls page) 0
  · intro k
    have := seq_nums_emit_mem
      (py_filename (pyReplace page.title " | GuildWars2.com" "")) d
      (matched_uls page) 0 h k
    simpa using this

/-- C5 counterexample: a release page whose first wallpaper block has no
size links; two blocks are found yet the emitted sequence numbers are
exactly the list holding 2, which does not start at 1. -/
theorem c5_counterexample :
    seq_nums ((get_specified_release_wall page_skip rel_url_nodate).getD [])
      = [2] ∧
    (matched_uls page_skip).length = 2 ∧
    ¬ (1 : Nat) ∈ seq_nums
      ((get_specified_release_wall page_skip rel_url_nodate).getD []) := by
  exact ⟨by decide, by decide, by decide⟩

/-- C5 witness: the amended theorem applied to a two-block page each of
whose blocks has links. -/
theorem c5_witness :
    (seq_nums ws_two).Sorted (· ≤ ·) :=
  (c5_sequence_numbers page_two rel_url_good ws_two
    (by decide) (by decide)).1

-- C6.

theorem dropWhile_rev_jpg (l : List Char) :
    (l ++ ['.', 'j', 'p', 'g']).reverse.dropWhile py_is_space
      = (l ++ ['.', 'j', 'p', 'g']).reverse := by
  rw [List.reverse_append]
  rfl

/-- C6 (amended): for a Media record (empty date and number) whose name
starts with a non-whitespace character, the use_info save path is the root
joined with the filled template where the leading space of the empty date
field is trimmed away but the interior empty number field leaves two
consecutive spaces between the name and the resolution. -/
theorem c6_info_name :
    ∀ (root : String) (item : Wall) (c : Char) (cs : List Char),
    item.date = none → item.num = none →
    item.name.data = c :: cs → py_is_space c = false →
    save_file_info root item =
      root ++ "/" ++ String.mk (item.name.data
        ++ ' ' :: ' ' :: (item.dim.data ++ ['.', 'j', 'p', 'g'])) := by
  intro root item c cs hd hn hname hc
  unfold save_file_info path_join info_name pyStrip format_info
  rw [hd, hn]
  have e1 : date_str none = "" := rfl
  have e2 : num_str none = "" := rfl
  have hdata : (("" : String) ++ " " ++ item.name ++ " " ++ ""
      ++ " " ++ item.dim ++ ".jpg").data
      = ' ' :: (item.name.data
          ++ ' ' :: ' ' :: (item.dim.data ++ ['.', 'j', 'p', 'g'])) := by
    have g1 : ("" : String).data = [] := rfl
    have g2 : (" " : String).data = [' '] := rfl
    have g3 : (".jpg" : String).data = ['.', 'j', 'p', 'g'] := rfl
    simp [str_data_append, g1, g2, g3]
  rw [e1, e2, hdata]
  rw [List.dropWhile_cons_of_pos (by decide)]
  rw [hname]
  have hX : (c :: cs) ++ ' ' :: ' ' :: (item.dim.data ++ ['.', 'j', 'p', 'g'])
      = ((c :: cs) ++ ([' ', ' '] ++ item.dim.data)) ++ ['.', 'j', 'p', 'g'] := by
    simp [List.append_assoc]
  rw [show ((c :: cs) ++ ' ' :: ' ' :: (item.dim.data ++ ['.', 'j', 'p', 'g'])).dropWhile py_is_space
      = (c :: (cs ++ ' ' :: ' ' :: (item.dim.data ++ ['.', 'j', 'p', 'g']))).dropWhile py_is_space from rfl]
  rw [List.dropWhile_cons_of_neg (by simp [hc])]
  rw [show c :: (cs ++ ' ' :: ' ' :: (item.dim.data ++ ['.', 'j', 'p', 'g']))
      = (c :: cs) ++ ' ' :: ' ' :: (item.dim.data ++ ['.', 'j', 'p', 'g']) from rfl]
  rw [hX, dropWhile_rev_jpg, List.reverse_reverse]

/-- C6 counterexample: the scenario Media record produces a file name that
does contain two consecutive spaces, so empty fields are not collapsed. -/
theorem c6_counterexample :
    info_name wall_media_foo = "foo  1920x1200.jpg" ∧
    has_double_space (info_name wall_media_foo).data = true := by
  exact ⟨by decide, by decide⟩

/-- C6 witness: the amended theorem applied to the scenario Media record. -/
theorem c6_witness :
    save_file_info "walls" wall_media_foo =
      "walls" ++ "/" ++ String.mk (wall_media_foo.name.data
        ++ ' ' :: ' ' :: (wall_media_foo.dim.data ++ ['.', 'j', 'p', 'g'])) :=
  c6_info_name "walls" wall_media_foo 'f' ['o', 'o'] rfl rfl rfl rfl

-- C7.

/-- C7 (amended): a catalog of zero records makes the constructor raise a
ValueError reading no walls found, immediately after extraction and before
any filtering; a non-empty catalog never raises it. The exception is,
however, the same ValueError type the filter guards raise, not a distinct
error type. -/
theorem c7_empty_catalog :
    (∀ m r : List Wall,
      gw2walls_init m r = .error (.valueError "No walls found.") ↔ m ++ r = []) ∧
    (∀ (m r : List Wall) (dim : String) (name wtype : Option String),
      m ++ r = [] →
      run_pipeline m r dim name wtype =
        .error (.valueError "No walls found.")) ∧
    (∀ m r : List Wall, m ++ r ≠ [] → gw2walls_init m r = .ok (m ++ r)) := by
  refine ⟨?_, ?_, ?_⟩
  · intro m r
    unfold gw2walls_init
    by_cases h : (m ++ r).length = 0
    · rw [if_pos h]
      exact iff_of_true rfl (List.length_eq_zero.mp h)
    · rw [if_neg h]
      refine iff_of_false (by simp) (fun he => h (by simp [he]))
  · intro m r dim name wtype hmr
    unfold run_pipeline gw2walls_init
    rw [if_pos (by simp [hmr])]
  · intro m r hne
    unfold gw2walls_init
    rw [if_neg (fun h0 => hne (List.length_eq_zero.mp h0))]

/-- C7 counterexample: the empty-catalog error and a validation error from
the filter are values of one and the same exception type, ValueError, so
the two are not distinguishable by type. -/
theorem c7_counterexample :
    gw2walls_init [] [] = .error (.valueError "No walls found.") ∧
    collect_download_urls [wall_media_foo] "9999x9999" none none =
      .error (.valueError (dim_error_msg "9999x9999" [wall_media_foo])) ∧
    (PyError.valueError "No walls found.").isValueError = true ∧
    (PyError.valueError
      (dim_error_msg "9999x9999" [wall_media_foo])).isValueError = true := by
  exact ⟨by decide, by decide, by decide, by decide⟩

/-- C7 witness: the fail-fast behavior applied to an empty catalog. -/
theorem c7_witness :
    run_pipeline [] [] "1920x1200" none none =
      .error (.valueError "No walls found.") :=
  c7_empty_catalog.2.1 [] [] "1920x1200" none none rfl

-- C8.

/-- C8 (amended): in GW2Walls2 a fetch failure on one release page is
caught, that release contributes zero queue items, and every other entry
contributes exactly what its own fetch yields, unchanged; a failure on the
top-level releases index is fatal. In GW2Walls.py the per-release fetch is
unguarded, so one bad release page aborts the whole release extraction. -/
theorem c8_release_isolation :
    (∀ (fetch : String → Except PyError (List Anchor))
        (res sp : String) (ent : RelEntry) (e : PyError),
      fetch (cleanup_url ent.href) = .error e →
      release_items2 fetch res sp ent = []) ∧
    (∀ (fetch : String → Except PyError (List Anchor))
        (res sp : String) (entries : List RelEntry) (bad : RelEntry)
        (e : PyError),
      fetch (cleanup_url bad.href) = .error e →
      crawl_releases2 fetch res sp entries =
        (entries.map (fun ent =>
          if ent = bad then [] else release_items2 fetch res sp ent)).flatten) ∧
    (∀ (fi : String → Except PyError (List RelEntry))
        (fetch : String → Except PyError (List Anchor)) (res sp : String)
        (e : PyError),
      fi RELEASES_URL = .error e →
      get_releases_urls2 fi fetch res sp = .error e) := by
  have hitems : ∀ (fetch : String → Except PyError (List Anchor))
      (res sp : String) (ent : RelEntry) (e : PyError),
      fetch (cleanup_url ent.href) = .error e →
      release_items2 fetch res sp ent = [] := by
    intro fetch res sp ent e he
    unfold release_items2
    rw [he]
  refine ⟨hitems, ?_, ?_⟩
  · intro fetch res sp entries bad e he
    unfold crawl_releases2
    congr 1
    refine List.map_congr_left ?_
    intro ent _
    by_cases hb : ent = bad
    · rw [if_pos hb]
      subst hb
      exact hitems fetch res sp ent e he
    · rw [if_neg hb]
  · intro fi fetch res sp e he
    unfold get_releases_urls2
    rw [he]

/-- C8 counterexample: in the GW2Walls.py model, a fetch failure on the
first release URL makes the whole release extraction fail, even though the
second release alone would have produced records. -/
theorem c8_counterexample :
    get_release_walls_v1 fetch_c8 [rel_url_bad, rel_url_good] =
      .error (.valueError "fetch failed") ∧
    get_release_walls_v1 fetch_c8 [rel_url_good] = .ok ws_two ∧
    ws_two ≠ [] := by
  exact ⟨by decide, by decide, by decide⟩

/-- C8 witness: the caught per-release failure applied to a concrete
failing entry of the GW2Walls2 model. -/
theorem c8_witness :
    release_items2 fetch2_c8 "1920x1200" "walls" ent_bad = [] :=
  c8_release_isolation.1 fetch2_c8 "1920x1200" "walls" ent_bad
    (.osError "net down") (by decide)

-- C9.

theorem download_run_outcomes (io : String × String → Except PyError Unit) :
    ∀ (items : List (String × String)) (st : DLState),
    (download_walls_run io st items).2 = items.map (fun it => io it) := by
  intro items
  induction items with
  | nil => intro st; rfl
  | cons it rest ih =>
    intro st
    simp only [download_walls_run, List.map_cons]
    congr 1
    · unfold download_step
      cases hio : io it with
      | error e => rfl
      | ok u => cases u; rfl
    · exact ih _

theorem download_run_files (io : String × String → Except PyError Unit) :
    ∀ (items : List (String × String)) (st : DLState),
    (download_walls_run io st items).1.files =
      ((items.filter (fun it => is_ok_exc (io it))).map Prod.snd).reverse
        ++ st.files := by
  intro items
  induction items with
  | nil => intro st; simp [download_walls_run]
  | cons it rest ih =>
    intro st
    simp only [download_walls_run]
    cases hio : io it with
    | error e =>
      rw [show download_step io st it = (st, .error e) from by
        unfold download_step; rw [hio]]
      rw [ih st]
      simp [List.filter_cons, hio, is_ok_exc]
    | ok u =>
      cases u
      rw [show download_step io st it = (⟨it.2 :: st.files⟩, .ok ()) from by
        unfold download_step; rw [hio]]
      rw [ih ⟨it.2 :: st.files⟩]
      simp [List.filter_cons, hio, is_ok_exc, List.append_assoc]

theorem is_err_error (e : PyError) :
    is_err (Except.error e : Except PyError Unit) = true := rfl

theorem is_err_ok (u : Unit) :
    is_err (Except.ok u : Except PyError Unit) = false := rfl

theorem is_ok_exc_error (e : PyError) :
    is_ok_exc (Except.error e : Except PyError Unit) = false := rfl

theorem is_ok_exc_ok (u : Unit) :
    is_ok_exc (Except.ok u : Except PyError Unit) = true := rfl

theorem countP_ok_err (io : String × String → Except PyError Unit) :
    ∀ items : List (String × String),
    items.countP (fun it => is_ok_exc (io it))
      + items.countP (fun it => is_err (io it)) = items.length := by
  intro items
  induction items with
  | nil => rfl
  | cons it rest ih =>
    cases hio : io it with
    | error e =>
      simp [List.countP_cons, hio, is_err_error, is_ok_exc_error]
      omega
    | ok u =>
      simp [List.countP_cons, hio, is_err_ok, is_ok_exc_ok]
      omega

/-- C9: the download loop catches each item failure and continues: every
submitted item gets exactly one outcome (the loop returns only after all
are resolved), with exactly one failure the other outcomes all succeed,
and every successful item has its destination recorded as written. -/
theorem c9_fetch_isolation :
    ∀ (io : String × String → Except PyError Unit) (st : DLState)
      (items : List (String × String)),
    items.countP (fun it => is_err (io it)) = 1 →
    ((download_walls_run io st items).2.length = items.length ∧
     (download_walls_run io st items).2.countP (fun r => is_err r) = 1 ∧
     (download_walls_run io st items).2.countP (fun r => is_ok_exc r) =
       items.length - 1 ∧
     ∀ it ∈ items, is_ok_exc (io it) = true →
       it.2 ∈ (download_walls_run io st items).1.files) := by
  intro io st items h1
  have houts := download_run_outcomes io items st
  have hfiles := download_run_files io items st
  have hsum := countP_ok_err io items
  refine ⟨?_, ?_, ?_, ?_⟩
  · rw [houts, List.length_map]
  · rw [houts, List.countP_map]
    exact h1
  · rw [houts, List.countP_map]
    simp only [Function.comp_def]
    omega
  · intro it hit hok
    rw [hfiles]
    refine List.mem_append.mpr (.inl ?_)
    rw [List.mem_reverse]
    exact List.mem_map.mpr ⟨it, List.mem_filter.mpr ⟨hit, hok⟩, rfl⟩

/-- C9 witness: the isolation theorem applied to three items of which
exactly the second fails. -/
theorem c9_witness :
    (download_walls_run io_c9 ⟨[]⟩ items_c9).2.length = items_c9.length ∧
    (download_walls_run io_c9 ⟨[]⟩ items_c9).2.countP (fun r => is_err r) = 1 :=
  ⟨(c9_fetch_isolation io_c9 ⟨[]⟩ items_c9 (by decide)).1,
   (c9_fetch_isolation io_c9 ⟨[]⟩ items_c9 (by decide)).2.1⟩

end GW2
